import Mathlib

/-!
# Todo API: use case, repository and request boundary

A shallow embedding of the Go packages `internaldomain`, `internalrepository`,
`internalusecase` and `internaldeliveryhttp`.

* Go's multiple return values `(value, error)` are pairs; a `nil` pointer or a `nil`
  error is `none`.
* A method with side effects on the store takes the store and returns the new store
  next to its results.
* `time.Now()` reads an explicit clock: the `n`-th call of a run returns `clock n`.
* A `*Todo` argument that a repository method may write through is returned next to
  the error (the pointee after the call).
-/

set_option linter.dupNamespace false

namespace TodoApi

/-! ## internaldomain/todo.go -/

/-- A reading of `time.Now()`; only the order and equality of readings matter, and the
table stores a reading as given. -/
abbrev Time := Int

/-- The entity `domain.Todo`. -/
structure Todo where
  ID : Int
  Title : String
  Description : String
  Completed : Bool
  CreatedAt : Time
  UpdatedAt : Time
  deriving DecidableEq, Repr

/-- Go `error` values as the program tells them apart: the two package-level values of
`internalusecase` (compared with `==` by the handlers) and every other error value
(made by `fmt.Errorf`, or coming from a repository), which is equal to neither. -/
inductive Error where
  | ErrTodoNotFound
  | ErrInvalidTodoData
  | other (msg : String)
  deriving DecidableEq, Repr

/-- The text of `err.Error()`. -/
def Error.Error : Error → String
  | .ErrTodoNotFound => "todo not found"
  | .ErrInvalidTodoData => "invalid todo data"
  | .other msg => msg

/-- The interface `domain.TodoRepository` over a store of type `σ`. -/
structure TodoRepository (σ : Type) where
  Create : Todo → σ → (Todo × Option Error) × σ
  GetByID : Int → σ → (Option Todo × Option Error) × σ
  GetAll : σ → (List Todo × Option Error) × σ
  Update : Todo → σ → (Todo × Option Error) × σ
  Delete : Int → σ → Option Error × σ

/-! ## The relational store behind `database/sql`

The table `todos` with the statements the repository sends to it. Each statement is
atomic; what happens around a statement (a driver failure, a statement of another
session) is read from a script carried by the store. -/

/-- An error of `database/sql`. -/
inductive SqlError where
  | ErrNoRows
  | driver (msg : String)
  deriving DecidableEq, Repr

/-- The text of a `database/sql` error. -/
def SqlError.Error : SqlError → String
  | .ErrNoRows => "sql: no rows in result set"
  | .driver msg => msg

/-- What surrounds the next statement of this session. -/
inductive Event where
  /-- The statement runs. -/
  | run
  /-- The driver fails; the statement does not run. -/
  | driverError (msg : String)
  /-- Another session deletes the row `id` first; then the statement runs. -/
  | concurrentDelete (id : Int)
  deriving DecidableEq, Repr

/-- The database: the rows of `todos`, the sequence behind the `id` column, and the
events around the coming statements (none left: every statement runs). -/
structure DB where
  rows : List Todo
  nextID : Int
  script : List Event
  deriving DecidableEq, Repr

/-- The value `sql.Result` of an `Exec`. -/
structure Result where
  rowsAffected : Int
  rowsAffectedErr : Option SqlError
  deriving DecidableEq, Repr

/-- The method `result.RowsAffected()`. -/
def Result.RowsAffected (r : Result) : Int × Option SqlError :=
  (r.rowsAffected, r.rowsAffectedErr)

/-- Consume the event of the next statement: the driver error, if any, and the store
in which the statement then runs. -/
def DB.step (db : DB) : Option String × DB :=
  match db.script with
  | [] => (none, db)
  | .run :: es => (none, { db with script := es })
  | .driverError msg :: es => (some msg, { db with script := es })
  | .concurrentDelete id :: es =>
      (none, { db with rows := db.rows.filter (fun r => decide (r.ID ≠ id)), script := es })

/-- The statement `INSERT INTO todos (title, description, completed, created_at,
updated_at) VALUES ($1, $2, $3, $4, $5) RETURNING id`, scanned into one integer. -/
def DB.insertReturningID (title description : String) (completed : Bool)
    (createdAt updatedAt : Time) (db : DB) : Except SqlError Int × DB :=
  match db.step with
  | (some msg, db1) => (.error (.driver msg), db1)
  | (none, db1) =>
      (.ok db1.nextID,
        { db1 with
          rows := db1.rows ++ [{ ID := db1.nextID, Title := title, Description := description,
                                 Completed := completed, CreatedAt := createdAt,
                                 UpdatedAt := updatedAt }],
          nextID := db1.nextID + 1 })

/-- The statement `SELECT id, title, description, completed, created_at, updated_at FROM
todos WHERE id = $1`, scanned as one row. -/
def DB.selectByID (id : Int) (db : DB) : Except SqlError Todo × DB :=
  match db.step with
  | (some msg, db1) => (.error (.driver msg), db1)
  | (none, db1) =>
      match db1.rows.find? (fun r => decide (r.ID = id)) with
      | none => (.error .ErrNoRows, db1)
      | some r => (.ok r, db1)

/-- The statement `SELECT ... FROM todos ORDER BY created_at DESC`. -/
def DB.selectAll (db : DB) : Except SqlError (List Todo) × DB :=
  match db.step with
  | (some msg, db1) => (.error (.driver msg), db1)
  | (none, db1) => (.ok (db1.rows.insertionSort (fun a b => b.CreatedAt ≤ a.CreatedAt)), db1)

/-- The statement `UPDATE todos SET title = $1, description = $2, completed = $3,
updated_at = $4 WHERE id = $5`. -/
def DB.execUpdate (title description : String) (completed : Bool) (updatedAt : Time)
    (id : Int) (db : DB) : Except SqlError Result × DB :=
  match db.step with
  | (some msg, db1) => (.error (.driver msg), db1)
  | (none, db1) =>
      (.ok { rowsAffected := (db1.rows.countP (fun r => decide (r.ID = id)) : Nat),
             rowsAffectedErr := none },
        { db1 with
          rows := db1.rows.map (fun r =>
            if r.ID = id then
              { r with Title := title, Description := description, Completed := completed,
                       UpdatedAt := updatedAt }
            else r) })

/-- The statement `DELETE FROM todos WHERE id = $1`. -/
def DB.execDelete (id : Int) (db : DB) : Except SqlError Result × DB :=
  match db.step with
  | (some msg, db1) => (.error (.driver msg), db1)
  | (none, db1) =>
      (.ok { rowsAffected := (db1.rows.countP (fun r => decide (r.ID = id)) : Nat),
             rowsAffectedErr := none },
        { db1 with rows := db1.rows.filter (fun r => decide (r.ID ≠ id)) })

/-! ## internalrepository/todo_repository_postgres.go -/

/-- The method `PostgresTodoRepository.Create`: the insert, the returned id scanned into
`todo.ID`. -/
def PostgresTodoRepository.Create (todo : Todo) (db : DB) : (Todo × Option Error) × DB :=
  match db.insertReturningID todo.Title todo.Description todo.Completed todo.CreatedAt
      todo.UpdatedAt with
  | (.error err, db1) => ((todo, some (.other ("failed to create todo: " ++ err.Error))), db1)
  | (.ok id, db1) => (({ todo with ID := id }, none), db1)

/-- The method `PostgresTodoRepository.GetByID`: no row is `(nil, nil)`. -/
def PostgresTodoRepository.GetByID (id : Int) (db : DB) : (Option Todo × Option Error) × DB :=
  match db.selectByID id with
  | (.error .ErrNoRows, db1) => ((none, none), db1)
  | (.error err, db1) => ((none, some (.other ("failed to get todo: " ++ err.Error))), db1)
  | (.ok todo, db1) => ((some todo, none), db1)

/-- The method `PostgresTodoRepository.GetAll`. -/
def PostgresTodoRepository.GetAll (db : DB) : (List Todo × Option Error) × DB :=
  match db.selectAll with
  | (.error err, db1) => (([], some (.other ("failed to get todos: " ++ err.Error))), db1)
  | (.ok todos, db1) => ((todos, none), db1)

/-- The method `PostgresTodoRepository.Update`. -/
def PostgresTodoRepository.Update (todo : Todo) (db : DB) : (Todo × Option Error) × DB :=
  match db.execUpdate todo.Title todo.Description todo.Completed todo.UpdatedAt todo.ID with
  | (.error err, db1) => ((todo, some (.other ("failed to update todo: " ++ err.Error))), db1)
  | (.ok result, db1) =>
      match result.RowsAffected with
      | (_, some err) =>
          ((todo, some (.other ("failed to get rows affected: " ++ err.Error))), db1)
      | (rowsAffected, none) =>
          if rowsAffected = 0 then
            ((todo, some (.other ("no todo found with id " ++ toString todo.ID))), db1)
          else ((todo, none), db1)

/-- The method `PostgresTodoRepository.Delete`. -/
def PostgresTodoRepository.Delete (id : Int) (db : DB) : Option Error × DB :=
  match db.execDelete id with
  | (.error err, db1) => (some (.other ("failed to delete todo: " ++ err.Error)), db1)
  | (.ok result, db1) =>
      match result.RowsAffected with
      | (_, some err) => (some (.other ("failed to get rows affected: " ++ err.Error)), db1)
      | (rowsAffected, none) =>
          if rowsAffected = 0 then
            (some (.other ("no todo found with id " ++ toString id)), db1)
          else (none, db1)

/-- The constructor `NewPostgresTodoRepository`: the repository as a
`domain.TodoRepository`. -/
def NewPostgresTodoRepository : TodoRepository DB where
  Create := PostgresTodoRepository.Create
  GetByID := PostgresTodoRepository.GetByID
  GetAll := PostgresTodoRepository.GetAll
  Update := PostgresTodoRepository.Update
  Delete := PostgresTodoRepository.Delete

/-! ## internalusecase/todo_usecase.go -/

/-- What a use case runs in: the store of its repository and the number of
`time.Now()` calls made so far. -/
structure World (σ : Type) where
  store : σ
  ticks : Nat

/-- The call `time.Now()`. -/
def timeNow {σ : Type} (clock : Nat → Time) (w : World σ) : Time × World σ :=
  (clock w.ticks, { w with ticks := w.ticks + 1 })

/-- The struct `usecase.TodoUseCase`. -/
structure TodoUseCase (σ : Type) where
  todoRepo : TodoRepository σ

/-- The constructor `NewTodoUseCase`. -/
def NewTodoUseCase {σ : Type} (todoRepo : TodoRepository σ) : TodoUseCase σ :=
  { todoRepo := todoRepo }

/-- The method `TodoUseCase.CreateTodo`. -/
def TodoUseCase.CreateTodo {σ : Type} (uc : TodoUseCase σ) (clock : Nat → Time)
    (title description : String) (w : World σ) : (Option Todo × Option Error) × World σ :=
  if title = "" then ((none, some .ErrInvalidTodoData), w)
  else
    let n1 := timeNow clock w
    let n2 := timeNow clock n1.2
    let todo : Todo :=
      { ID := 0, Title := title, Description := description, Completed := false,
        CreatedAt := n1.1, UpdatedAt := n2.1 }
    let r := uc.todoRepo.Create todo n2.2.store
    let w1 : World σ := { n2.2 with store := r.2 }
    match r.1.2 with
    | some err => ((none, some err), w1)
    | none => ((some r.1.1, none), w1)

/-- The method `TodoUseCase.GetTodoByID`. -/
def TodoUseCase.GetTodoByID {σ : Type} (uc : TodoUseCase σ) (id : Int) (w : World σ) :
    (Option Todo × Option Error) × World σ :=
  if id ≤ 0 then ((none, some .ErrInvalidTodoData), w)
  else
    let r := uc.todoRepo.GetByID id w.store
    let w1 : World σ := { w with store := r.2 }
    match r.1.2 with
    | some err => ((none, some err), w1)
    | none =>
        match r.1.1 with
        | none => ((none, some .ErrTodoNotFound), w1)
        | some todo => ((some todo, none), w1)

/-- The method `TodoUseCase.GetAllTodos`. -/
def TodoUseCase.GetAllTodos {σ : Type} (uc : TodoUseCase σ) (w : World σ) :
    (List Todo × Option Error) × World σ :=
  let r := uc.todoRepo.GetAll w.store
  (r.1, { w with store := r.2 })

/-- The method `TodoUseCase.UpdateTodo`. -/
def TodoUseCase.UpdateTodo {σ : Type} (uc : TodoUseCase σ) (clock : Nat → Time) (id : Int)
    (title description : String) (completed : Bool) (w : World σ) :
    (Option Todo × Option Error) × World σ :=
  if id ≤ 0 then ((none, some .ErrInvalidTodoData), w)
  else
    let r := uc.todoRepo.GetByID id w.store
    let w1 : World σ := { w with store := r.2 }
    match r.1.2 with
    | some err => ((none, some err), w1)
    | none =>
        match r.1.1 with
        | none => ((none, some .ErrTodoNotFound), w1)
        | some existingTodo =>
            let t1 : Todo := if title ≠ "" then { existingTodo with Title := title } else existingTodo
            let t2 : Todo := { t1 with Description := description }
            let t3 : Todo := { t2 with Completed := completed }
            let n := timeNow clock w1
            let t4 : Todo := { t3 with UpdatedAt := n.1 }
            let u := uc.todoRepo.Update t4 n.2.store
            let w2 : World σ := { n.2 with store := u.2 }
            match u.1.2 with
            | some err => ((none, some err), w2)
            | none => ((some u.1.1, none), w2)

/-- The method `TodoUseCase.DeleteTodo`. -/
def TodoUseCase.DeleteTodo {σ : Type} (uc : TodoUseCase σ) (id : Int) (w : World σ) :
    Option Error × World σ :=
  if id ≤ 0 then (some .ErrInvalidTodoData, w)
  else
    let r := uc.todoRepo.GetByID id w.store
    let w1 : World σ := { w with store := r.2 }
    match r.1.2 with
    | some err => (some err, w1)
    | none =>
        match r.1.1 with
        | none => (some .ErrTodoNotFound, w1)
        | some _ =>
            let d := uc.todoRepo.Delete id w1.store
            (d.1, { w1 with store := d.2 })

/-- The method `TodoUseCase.ToggleTodoComplete`. -/
def TodoUseCase.ToggleTodoComplete {σ : Type} (uc : TodoUseCase σ) (clock : Nat → Time)
    (id : Int) (w : World σ) : (Option Todo × Option Error) × World σ :=
  if id ≤ 0 then ((none, some .ErrInvalidTodoData), w)
  else
    let r := uc.todoRepo.GetByID id w.store
    let w1 : World σ := { w with store := r.2 }
    match r.1.2 with
    | some err => ((none, some err), w1)
    | none =>
        match r.1.1 with
        | none => ((none, some .ErrTodoNotFound), w1)
        | some todo =>
            let t1 : Todo := { todo with Completed := !todo.Completed }
            let n := timeNow clock w1
            let t2 : Todo := { t1 with UpdatedAt := n.1 }
            let u := uc.todoRepo.Update t2 n.2.store
            let w2 : World σ := { n.2 with store := u.2 }
            match u.1.2 with
            | some err => ((none, some err), w2)
            | none => ((some u.1.1, none), w2)

/-! ## internaldeliveryhttp/todo_handler.go -/

/-- The function `strconv.Atoi` of the Go library: an optional sign, then one or more
decimal digits, the value within the range of a 64-bit `int`. -/
def Atoi (s : String) : Option Int :=
  let cs := s.toList
  let neg : Bool := cs.head? = some '-'
  let ds : List Char := if cs.head? = some '-' ∨ cs.head? = some '+' then cs.tail else cs
  if ds = [] then none
  else if ds.all Char.isDigit then
    let n : Int := ds.foldl (fun a c => a * 10 + ((c.toNat - 48 : Nat) : Int)) 0
    let v : Int := if neg then -n else n
    if v < -(2 ^ 63) ∨ 2 ^ 63 - 1 < v then none else some v
  else none

/-- The struct `CreateTodoRequest`. -/
structure CreateTodoRequest where
  Title : String
  Description : String
  deriving DecidableEq, Repr

/-- The struct `UpdateTodoRequest`. -/
structure UpdateTodoRequest where
  Title : String
  Description : String
  Completed : Bool
  deriving DecidableEq, Repr

/-- What a handler reads from `gin.Context`: the path parameter `id` and the JSON body
decoded into the request fields (`none`: the body is not JSON of that shape; a missing
field has its zero value). -/
structure Context where
  paramID : String
  body : Option UpdateTodoRequest

/-- The call `c.ShouldBindJSON(&req)` for a `CreateTodoRequest`: decoding, then the
`binding:"required"` tag on `Title`, which rejects the zero value. -/
def Context.ShouldBindJSONCreate (c : Context) : Option CreateTodoRequest :=
  match c.body with
  | none => none
  | some b => if b.Title = "" then none else some { Title := b.Title, Description := b.Description }

/-- The call `c.ShouldBindJSON(&req)` for an `UpdateTodoRequest`. -/
def Context.ShouldBindJSONUpdate (c : Context) : Option UpdateTodoRequest :=
  match c.body with
  | none => none
  | some b => if b.Title = "" then none else some b

/-- The field `Data` of a `SuccessResponse`. -/
inductive Data where
  | todo (t : Todo)
  | todos (ts : List Todo)
  deriving DecidableEq, Repr

/-- The body written by `c.JSON`: `gin.H` with the key `error`, or a
`SuccessResponse`. -/
inductive Body where
  | H (error : String)
  | SuccessResponse (Message : String) (Data : Option Data)
  deriving DecidableEq, Repr

/-- The response written by `c.JSON(status, body)`. -/
structure Response where
  status : Nat
  body : Body
  deriving DecidableEq, Repr

/-- The constant `http.StatusOK`. -/
def StatusOK : Nat := 200
/-- The constant `http.StatusCreated`. -/
def StatusCreated : Nat := 201
/-- The constant `http.StatusBadRequest`. -/
def StatusBadRequest : Nat := 400
/-- The constant `http.StatusNotFound`. -/
def StatusNotFound : Nat := 404
/-- The constant `http.StatusInternalServerError`. -/
def StatusInternalServerError : Nat := 500

/-- The struct `TodoHandler`. -/
structure TodoHandler (σ : Type) where
  todoUseCase : TodoUseCase σ

/-- The constructor `NewTodoHandler`. -/
def NewTodoHandler {σ : Type} (todoUseCase : TodoUseCase σ) : TodoHandler σ :=
  { todoUseCase := todoUseCase }

/-- The handler `TodoHandler.CreateTodo` (POST /todos). -/
def TodoHandler.CreateTodo {σ : Type} (h : TodoHandler σ) (clock : Nat → Time) (c : Context)
    (w : World σ) : Response × World σ :=
  match c.ShouldBindJSONCreate with
  | none => ({ status := StatusBadRequest, body := .H "Invalid request body" }, w)
  | some req =>
      let r := h.todoUseCase.CreateTodo clock req.Title req.Description w
      match r.1.2 with
      | some err =>
          if err = .ErrInvalidTodoData then
            ({ status := StatusBadRequest, body := .H err.Error }, r.2)
          else ({ status := StatusInternalServerError, body := .H "Failed to create todo" }, r.2)
      | none =>
          ({ status := StatusCreated,
             body := .SuccessResponse "Todo created successfully" (r.1.1.map Data.todo) }, r.2)

/-- The handler `TodoHandler.GetTodoByID` (GET /todos/:id). -/
def TodoHandler.GetTodoByID {σ : Type} (h : TodoHandler σ) (c : Context) (w : World σ) :
    Response × World σ :=
  match Atoi c.paramID with
  | none => ({ status := StatusBadRequest, body := .H "Invalid todo ID" }, w)
  | some id =>
      let r := h.todoUseCase.GetTodoByID id w
      match r.1.2 with
      | some err =>
          if err = .ErrTodoNotFound then
            ({ status := StatusNotFound, body := .H err.Error }, r.2)
          else ({ status := StatusInternalServerError, body := .H "Failed to get todo" }, r.2)
      | none =>
          ({ status := StatusOK,
             body := .SuccessResponse "Todo retrieved successfully" (r.1.1.map Data.todo) }, r.2)

/-- The handler `TodoHandler.GetAllTodos` (GET /todos). -/
def TodoHandler.GetAllTodos {σ : Type} (h : TodoHandler σ) (w : World σ) :
    Response × World σ :=
  let r := h.todoUseCase.GetAllTodos w
  match r.1.2 with
  | some _ => ({ status := StatusInternalServerError, body := .H "Failed to get todos" }, r.2)
  | none =>
      ({ status := StatusOK,
         body := .SuccessResponse "Todos retrieved successfully" (some (.todos r.1.1)) }, r.2)

/-- The handler `TodoHandler.UpdateTodo` (PUT /todos/:id). -/
def TodoHandler.UpdateTodo {σ : Type} (h : TodoHandler σ) (clock : Nat → Time) (c : Context)
    (w : World σ) : Response × World σ :=
  match Atoi c.paramID with
  | none => ({ status := StatusBadRequest, body := .H "Invalid todo ID" }, w)
  | some id =>
      match c.ShouldBindJSONUpdate with
      | none => ({ status := StatusBadRequest, body := .H "Invalid request body" }, w)
      | some req =>
          let r := h.todoUseCase.UpdateTodo clock id req.Title req.Description req.Completed w
          match r.1.2 with
          | some err =>
              if err = .ErrTodoNotFound then
                ({ status := StatusNotFound, body := .H err.Error }, r.2)
              else if err = .ErrInvalidTodoData then
                ({ status := StatusBadRequest, body := .H err.Error }, r.2)
              else
                ({ status := StatusInternalServerError, body := .H "Failed to update todo" }, r.2)
          | none =>
              ({ status := StatusOK,
                 body := .SuccessResponse "Todo updated successfully" (r.1.1.map Data.todo) },
                r.2)

/-- The handler `TodoHandler.DeleteTodo` (DELETE /todos/:id). -/
def TodoHandler.DeleteTodo {σ : Type} (h : TodoHandler σ) (c : Context) (w : World σ) :
    Response × World σ :=
  match Atoi c.paramID with
  | none => ({ status := StatusBadRequest, body := .H "Invalid todo ID" }, w)
  | some id =>
      let r := h.todoUseCase.DeleteTodo id w
      match r.1 with
      | some err =>
          if err = .ErrTodoNotFound then
            ({ status := StatusNotFound, body := .H err.Error }, r.2)
          else ({ status := StatusInternalServerError, body := .H "Failed to delete todo" }, r.2)
      | none =>
          ({ status := StatusOK, body := .SuccessResponse "Todo deleted successfully" none }, r.2)

/-- The handler `TodoHandler.ToggleTodoComplete` (PATCH /todos/:id/toggle). -/
def TodoHandler.ToggleTodoComplete {σ : Type} (h : TodoHandler σ) (clock : Nat → Time)
    (c : Context) (w : World σ) : Response × World σ :=
  match Atoi c.paramID with
  | none => ({ status := StatusBadRequest, body := .H "Invalid todo ID" }, w)
  | some id =>
      let r := h.todoUseCase.ToggleTodoComplete clock id w
      match r.1.2 with
      | some err =>
          if err = .ErrTodoNotFound then
            ({ status := StatusNotFound, body := .H err.Error }, r.2)
          else ({ status := StatusInternalServerError, body := .H "Failed to toggle todo" }, r.2)
      | none =>
          ({ status := StatusOK,
             body := .SuccessResponse "Todo toggled successfully" (r.1.1.map Data.todo) }, r.2)

/-! ## Observing the calls a use case makes -/

/-- A call of a method of `domain.TodoRepository`. -/
inductive Call where
  | Create (todo : Todo)
  | GetByID (id : Int)
  | GetAll
  | Update (todo : Todo)
  | Delete (id : Int)
  deriving DecidableEq, Repr

/-- The repository `repo` with every call of a method appended to a log kept next to
its store. -/
def logged {σ : Type} (repo : TodoRepository σ) : TodoRepository (σ × List Call) where
  Create := fun todo s => ((repo.Create todo s.1).1, ((repo.Create todo s.1).2, s.2 ++ [.Create todo]))
  GetByID := fun id s => ((repo.GetByID id s.1).1, ((repo.GetByID id s.1).2, s.2 ++ [.GetByID id]))
  GetAll := fun s => ((repo.GetAll s.1).1, ((repo.GetAll s.1).2, s.2 ++ [.GetAll]))
  Update := fun todo s => ((repo.Update todo s.1).1, ((repo.Update todo s.1).2, s.2 ++ [.Update todo]))
  Delete := fun id s => ((repo.Delete id s.1).1, ((repo.Delete id s.1).2, s.2 ++ [.Delete id]))

/-! ## Example values -/

/-- A clock whose readings are all different: the `n`-th reading is `100 + 10 * n`. -/
def exampleClock : Nat → Time := fun n => 100 + 10 * (n : Int)

/-- The use case wired as in `main.go`: over the PostgreSQL repository. -/
def todoUseCase : TodoUseCase DB := NewTodoUseCase NewPostgresTodoRepository

/-- The handler wired as in `main.go`. -/
def todoHandler : TodoHandler DB := NewTodoHandler todoUseCase

/-- A stored record. -/
def milk : Todo :=
  { ID := 1, Title := "Buy milk", Description := "2%", Completed := false,
    CreatedAt := 100, UpdatedAt := 110 }

/-- A table holding `milk` in which every statement runs, two clock readings taken. -/
def milkWorld : World DB := { store := { rows := [milk], nextID := 2, script := [] }, ticks := 2 }

/-- A table holding `milk` where another session deletes row 1 between the first and the
second statement. -/
def racedWorld : World DB :=
  { store := { rows := [milk], nextID := 2, script := [.run, .concurrentDelete 1] }, ticks := 2 }

/-! ## Lemmas on the store and the repository -/

/-- The repository's GetByID in terms of the event of its statement and the table it runs on. -/
theorem GetByID_eq (id : Int) (db : DB) :
    PostgresTodoRepository.GetByID id db =
      match db.step.1 with
      | some msg => ((none, some (.other ("failed to get todo: " ++ msg))), db.step.2)
      | none => ((db.step.2.rows.find? (fun r => decide (r.ID = id)), none), db.step.2) := by
  simp only [PostgresTodoRepository.GetByID, DB.selectByID]
  rcases db.step with ⟨_ | msg, db1⟩
  · dsimp only
    cases db1.rows.find? (fun r => decide (r.ID = id)) <;> rfl
  · rfl

/-- The repository's Update in terms of the event of its statement and the table it runs on: it reports an error exactly when no row has the id. -/
theorem Update_eq (todo : Todo) (db : DB) :
    PostgresTodoRepository.Update todo db =
      match db.step.1 with
      | some msg => ((todo, some (.other ("failed to update todo: " ++ msg))), db.step.2)
      | none =>
          ((todo,
            if db.step.2.rows.find? (fun r => decide (r.ID = todo.ID)) = none then
              some (.other ("no todo found with id " ++ toString todo.ID))
            else none),
           { db.step.2 with
             rows := db.step.2.rows.map (fun r =>
               if r.ID = todo.ID then
                 { r with Title := todo.Title, Description := todo.Description,
                          Completed := todo.Completed, UpdatedAt := todo.UpdatedAt }
               else r) }) := by
  simp only [PostgresTodoRepository.Update, DB.execUpdate, Result.RowsAffected]
  rcases db.step with ⟨_ | msg, db1⟩
  · dsimp only
    by_cases h : db1.rows.find? (fun r => decide (r.ID = todo.ID)) = none
    · have h0 : db1.rows.countP (fun r => decide (r.ID = todo.ID)) = 0 := by
        rw [List.countP_eq_zero]
        simpa using h
      simp [h, h0]
    · have h0 : db1.rows.countP (fun r => decide (r.ID = todo.ID)) ≠ 0 := by
        intro hc
        rw [List.countP_eq_zero] at hc
        exact h (by simpa using hc)
      simp [h, h0]
  · rfl

/-- The repository's Delete in terms of the event of its statement and the table it runs on. -/
theorem Delete_eq (id : Int) (db : DB) :
    PostgresTodoRepository.Delete id db =
      match db.step.1 with
      | some msg => (some (.other ("failed to delete todo: " ++ msg)), db.step.2)
      | none =>
          (if db.step.2.rows.find? (fun r => decide (r.ID = id)) = none then
              some (.other ("no todo found with id " ++ toString id))
            else none,
           { db.step.2 with rows := db.step.2.rows.filter (fun r => decide (r.ID ≠ id)) }) := by
  simp only [PostgresTodoRepository.Delete, DB.execDelete, Result.RowsAffected]
  rcases db.step with ⟨_ | msg, db1⟩
  · dsimp only
    by_cases h : db1.rows.find? (fun r => decide (r.ID = id)) = none
    · have h0 : db1.rows.countP (fun r => decide (r.ID = id)) = 0 := by
        rw [List.countP_eq_zero]
        simpa using h
      simp [h, h0]
    · have h0 : db1.rows.countP (fun r => decide (r.ID = id)) ≠ 0 := by
        intro hc
        rw [List.countP_eq_zero] at hc
        exact h (by simpa using hc)
      simp [h, h0]
  · rfl

/-- The repository's Create in terms of the event of its statement and the table it runs on. -/
theorem Create_eq (todo : Todo) (db : DB) :
    PostgresTodoRepository.Create todo db =
      match db.step.1 with
      | some msg => ((todo, some (.other ("failed to create todo: " ++ msg))), db.step.2)
      | none =>
          (({ todo with ID := db.step.2.nextID }, none),
           { db.step.2 with
             rows := db.step.2.rows ++ [{ todo with ID := db.step.2.nextID }],
             nextID := db.step.2.nextID + 1 }) := by
  simp only [PostgresTodoRepository.Create, DB.insertReturningID]
  rcases db.step with ⟨_ | msg, db1⟩ <;> rfl

/-- With no event left, the next statement runs on the table as it is. -/
theorem step_quiet (db : DB) (h : db.script = []) : db.step = (none, db) := by
  simp [DB.step, h]

/-- An event adds no row to the table. -/
theorem step_rows_mem (db : DB) (t : Todo) (h : t ∈ db.step.2.rows) : t ∈ db.rows := by
  unfold DB.step at h
  split at h
  · exact h
  · exact h
  · exact h
  · exact (List.mem_filter.mp h).1

/-- Searching for `p` after filtering by `q` is searching for `p`, when `p` implies `q`. -/
theorem find_filter_of_imp {α : Type} (p q : α → Bool) (hpq : ∀ a, p a = true → q a = true)
    (l : List α) : (l.filter q).find? p = l.find? p := by
  induction l with
  | nil => rfl
  | cons a l ih =>
    by_cases hq : q a = true
    · simp only [List.filter_cons, hq, if_true, List.find?_cons, ih]
    · have hp : p a = false := by
        cases hpa : p a
        · rfl
        · exact absurd (hpq a hpa) hq
      simp only [List.filter_cons, hq, List.find?_cons, hp, ih, Bool.false_eq_true, if_false]

/-- The row a SELECT by id finds after the event is the row it would have found before. -/
theorem find_step (db : DB) (id : Int) (r : Todo)
    (h : db.step.2.rows.find? (fun t => decide (t.ID = id)) = some r) :
    db.rows.find? (fun t => decide (t.ID = id)) = some r := by
  unfold DB.step at h
  split at h
  · exact h
  · exact h
  · exact h
  · rename_i j es _
    dsimp only at h
    have hr : r.ID = id := by simpa using List.find?_some h
    have hm : r.ID ≠ j := by
      have := (List.mem_filter.mp (List.mem_of_find?_eq_some h)).2
      simpa using this
    rw [find_filter_of_imp] at h
    · exact h
    · intro a ha
      have ha1 : a.ID = id := by simpa using ha
      simp only [decide_eq_true_eq]
      rw [ha1, ← hr]
      exact hm

/-- Searching by id commutes with a map that keeps ids. -/
theorem find_map_of_ID (l : List Todo) (id : Int) (f : Todo → Todo)
    (hf : ∀ r, (f r).ID = r.ID) :
    (l.map f).find? (fun r => decide (r.ID = id))
      = (l.find? (fun r => decide (r.ID = id))).map f := by
  induction l with
  | nil => rfl
  | cons a l ih =>
    by_cases ha : a.ID = id
    · simp [List.find?_cons, hf, ha]
    · simp only [List.map_cons, List.find?_cons, hf, ha, decide_False, ih]

/-- When GetByID returns a record, the store after it is the store after the event, the record is the first row with the id there, and it has the id. -/
theorem GetByID_some (id : Int) (db s1 : DB) (old : Todo)
    (h : PostgresTodoRepository.GetByID id db = ((some old, none), s1)) :
    s1 = db.step.2 ∧ s1.rows.find? (fun r => decide (r.ID = id)) = some old ∧ old.ID = id := by
  rw [GetByID_eq] at h
  split at h
  · simp at h
  · simp only [Prod.mk.injEq, and_true] at h
    obtain ⟨h1, h2⟩ := h
    subst h2
    exact ⟨rfl, h1, by simpa using List.find?_some h1⟩

/-- A successful Update of a record whose row was found before, with the row's created_at: the pointee is unchanged and a SELECT by id now finds the record. -/
theorem Update_after_get (t old : Todo) (s1 : DB)
    (hfind : s1.rows.find? (fun r => decide (r.ID = t.ID)) = some old)
    (hc : t.CreatedAt = old.CreatedAt)
    (hok : (PostgresTodoRepository.Update t s1).1.2 = none) :
    (PostgresTodoRepository.Update t s1).1.1 = t ∧
    (PostgresTodoRepository.Update t s1).2.rows.find? (fun r => decide (r.ID = t.ID)) = some t := by
  rw [Update_eq] at hok ⊢
  rcases hstep : s1.step with ⟨_ | msg, db1⟩
  · rw [hstep] at hok
    simp only [] at hok ⊢
    by_cases hnone : db1.rows.find? (fun r => decide (r.ID = t.ID)) = none
    · simp [hnone] at hok
    · obtain ⟨r, hr⟩ := Option.ne_none_iff_exists'.mp hnone
      have hdb1 : db1 = s1.step.2 := by rw [hstep]
      have hr1 : s1.rows.find? (fun r => decide (r.ID = t.ID)) = some r :=
        find_step s1 t.ID r (by rw [← hdb1]; exact hr)
      have hro : r = old := by
        rw [hfind] at hr1
        exact (Option.some.inj hr1).symm
      subst hro
      have hrid : r.ID = t.ID := by simpa using List.find?_some hr
      refine ⟨trivial, ?_⟩
      rw [find_map_of_ID _ _ _ (by intro a; split <;> rfl), hr]
      simp only [Option.map_some', hrid, if_true]
      rw [← hc]
  · rw [hstep] at hok
    simp at hok

/-- The use case UpdateTodo after a successful existence check: the merged record is handed to Update. -/
theorem UpdateTodo_of_get (clock : Nat → Time) (id : Int) (title description : String)
    (completed : Bool) (w : World DB) (old : Todo) (s1 : DB) (hid : 0 < id)
    (hget : PostgresTodoRepository.GetByID id w.store = ((some old, none), s1)) :
    todoUseCase.UpdateTodo clock id title description completed w =
      match (PostgresTodoRepository.Update
          { ID := old.ID, Title := if title = "" then old.Title else title,
            Description := description, Completed := completed, CreatedAt := old.CreatedAt,
            UpdatedAt := clock w.ticks } s1).1.2 with
      | some err =>
          ((none, some err),
            { store := (PostgresTodoRepository.Update
                { ID := old.ID, Title := if title = "" then old.Title else title,
                  Description := description, Completed := completed,
                  CreatedAt := old.CreatedAt, UpdatedAt := clock w.ticks } s1).2,
              ticks := w.ticks + 1 })
      | none =>
          ((some (PostgresTodoRepository.Update
                { ID := old.ID, Title := if title = "" then old.Title else title,
                  Description := description, Completed := completed,
                  CreatedAt := old.CreatedAt, UpdatedAt := clock w.ticks } s1).1.1, none),
            { store := (PostgresTodoRepository.Update
                { ID := old.ID, Title := if title = "" then old.Title else title,
                  Description := description, Completed := completed,
                  CreatedAt := old.CreatedAt, UpdatedAt := clock w.ticks } s1).2,
              ticks := w.ticks + 1 }) := by
  have hid2 : ¬ id ≤ 0 := not_le.mpr hid
  simp only [todoUseCase, NewTodoUseCase, NewPostgresTodoRepository, TodoUseCase.UpdateTodo,
    if_neg hid2, hget, timeNow]
  by_cases ht : title = ""
  · simp only [ht, ne_eq, not_true_eq_false, if_false, if_true]
  · simp only [ht, ne_eq, not_false_eq_true, if_false, if_true]

/-- When the table holds `old` as first row with the id and GetByID returns a record without error, that record is `old`. -/
theorem GetByID_of_find (id : Int) (db : DB) (old : Todo)
    (hfind : db.rows.find? (fun r => decide (r.ID = id)) = some old)
    (herr : (PostgresTodoRepository.GetByID id db).1.2 = none)
    (hsome : (PostgresTodoRepository.GetByID id db).1.1 ≠ none) :
    PostgresTodoRepository.GetByID id db = ((some old, none), db.step.2) := by
  rw [GetByID_eq] at herr hsome ⊢
  split
  · rename_i msg hmsg
    rw [hmsg] at herr
    simp at herr
  · rename_i hnone
    rw [hnone] at hsome
    simp only [] at hsome
    obtain ⟨r, hr⟩ := Option.ne_none_iff_exists'.mp hsome
    have hr1 := find_step db id r hr
    rw [hfind] at hr1
    rw [hr, ← Option.some.inj hr1]

/-- The use case ToggleTodoComplete after a successful existence check. -/
theorem ToggleTodoComplete_of_get (clock : Nat → Time) (id : Int) (w : World DB) (old : Todo)
    (s1 : DB) (hid : 0 < id)
    (hget : PostgresTodoRepository.GetByID id w.store = ((some old, none), s1)) :
    todoUseCase.ToggleTodoComplete clock id w =
      match (PostgresTodoRepository.Update
          { old with Completed := !old.Completed, UpdatedAt := clock w.ticks } s1).1.2 with
      | some err =>
          ((none, some err),
            { store := (PostgresTodoRepository.Update
                { old with Completed := !old.Completed, UpdatedAt := clock w.ticks } s1).2,
              ticks := w.ticks + 1 })
      | none =>
          ((some (PostgresTodoRepository.Update
                { old with Completed := !old.Completed, UpdatedAt := clock w.ticks } s1).1.1, none),
            { store := (PostgresTodoRepository.Update
                { old with Completed := !old.Completed, UpdatedAt := clock w.ticks } s1).2,
              ticks := w.ticks + 1 }) := by
  have hid2 : ¬ id ≤ 0 := not_le.mpr hid
  simp only [todoUseCase, NewTodoUseCase, NewPostgresTodoRepository,
    TodoUseCase.ToggleTodoComplete, if_neg hid2, hget, timeNow]

/-- A ToggleTodoComplete that returns no error returns the stored record with completed negated and updated_at set to the clock reading, and a SELECT by id finds it afterwards. -/
theorem ToggleTodoComplete_ok (clock : Nat → Time) (id : Int) (w : World DB) (old : Todo)
    (hid : 0 < id)
    (hfind : w.store.rows.find? (fun r => decide (r.ID = id)) = some old)
    (hok : (todoUseCase.ToggleTodoComplete clock id w).1.2 = none) :
    (todoUseCase.ToggleTodoComplete clock id w).1
      = (some { old with Completed := !old.Completed, UpdatedAt := clock w.ticks }, none) ∧
    (todoUseCase.ToggleTodoComplete clock id w).2.store.rows.find?
        (fun r => decide (r.ID = id))
      = some { old with Completed := !old.Completed, UpdatedAt := clock w.ticks } ∧
    (todoUseCase.ToggleTodoComplete clock id w).2.ticks = w.ticks + 1 := by
  have hid2 : ¬ id ≤ 0 := not_le.mpr hid
  have hoid : old.ID = id := by simpa using List.find?_some hfind
  have hget : PostgresTodoRepository.GetByID id w.store = ((some old, none), w.store.step.2) := by
    apply GetByID_of_find id w.store old hfind
    · revert hok
      simp only [todoUseCase, NewTodoUseCase, NewPostgresTodoRepository,
        TodoUseCase.ToggleTodoComplete, if_neg hid2]
      cases (PostgresTodoRepository.GetByID id w.store).1.2 <;> simp
    · revert hok
      simp only [todoUseCase, NewTodoUseCase, NewPostgresTodoRepository,
        TodoUseCase.ToggleTodoComplete, if_neg hid2]
      cases (PostgresTodoRepository.GetByID id w.store).1.2 <;>
        cases (PostgresTodoRepository.GetByID id w.store).1.1 <;> simp
  obtain ⟨_, hfind1, _⟩ := GetByID_some id w.store _ old hget
  subst hoid
  rw [ToggleTodoComplete_of_get clock old.ID w old _ hid hget] at hok ⊢
  split at hok
  · simp at hok
  · rename_i hnone
    have hk := Update_after_get
      { old with Completed := !old.Completed, UpdatedAt := clock w.ticks } old _ hfind1 rfl hnone
    simp only [hk.1]
    exact ⟨trivial, hk.2, trivial⟩

/-- The use case DeleteTodo for a positive id when every statement runs. -/
theorem DeleteTodo_quiet (id : Int) (w : World DB) (hid : 0 < id)
    (hquiet : w.store.script = []) :
    todoUseCase.DeleteTodo id w =
      if w.store.rows.find? (fun r => decide (r.ID = id)) = none then
        (some .ErrTodoNotFound, w)
      else
        (none, { w with store := { w.store with
          rows := w.store.rows.filter (fun r => decide (r.ID ≠ id)) } }) := by
  have hid2 : ¬ id ≤ 0 := not_le.mpr hid
  simp only [todoUseCase, NewTodoUseCase, NewPostgresTodoRepository, TodoUseCase.DeleteTodo,
    if_neg hid2, GetByID_eq, Delete_eq, step_quiet _ hquiet]
  cases hf : w.store.rows.find? (fun r => decide (r.ID = id)) with
  | none => simp
  | some r => simp [step_quiet _ hquiet, hf]

/-- After deleting the rows with an id, a SELECT by that id finds nothing. -/
theorem find_filter_ne (l : List Todo) (id : Int) :
    (l.filter (fun r => decide (r.ID ≠ id))).find? (fun r => decide (r.ID = id)) = none := by
  rw [List.find?_eq_none]
  intro r hr
  have := (List.mem_filter.mp hr).2
  simpa using this

/-- When ids are unique, deleting the rows with the id of `a` erases `a`. -/
theorem filter_eq_erase (l : List Todo) (a : Todo) (hnd : (l.map Todo.ID).Nodup) (ha : a ∈ l) :
    l.filter (fun r => decide (r.ID ≠ a.ID)) = l.erase a := by
  induction l with
  | nil => simp at ha
  | cons b l ih =>
    rw [List.map_cons, List.nodup_cons] at hnd
    by_cases hba : b = a
    · subst hba
      rw [List.erase_cons_head]
      have hall : ∀ r ∈ l, r.ID ≠ b.ID := by
        intro r hr heq
        exact hnd.1 (heq ▸ List.mem_map_of_mem Todo.ID hr)
      rw [List.filter_cons]
      simp only [ne_eq, not_true_eq_false, decide_False, Bool.false_eq_true, if_false]
      rw [List.filter_eq_self]
      intro r hr
      simpa using hall r hr
    · have hal : a ∈ l := by
        rcases List.mem_cons.mp ha with h | h
        · exact absurd h.symm hba
        · exact h
      have hne : b.ID ≠ a.ID := by
        intro heq
        exact hnd.1 (heq ▸ List.mem_map_of_mem Todo.ID hal)
      rw [List.filter_cons]
      simp only [ne_eq, hne, not_false_eq_true, decide_True, if_true]
      rw [List.erase_cons_tail (by simpa using hba), ih hnd.2 hal]

/-- The store after GetByID is the store after the event of its statement. -/
theorem GetByID_store (id : Int) (db : DB) :
    (PostgresTodoRepository.GetByID id db).2 = db.step.2 := by
  rw [GetByID_eq]
  split <;> rfl

/-- The record GetByID returns is a row of the table and has the id. -/
theorem GetByID_mem (id : Int) (db : DB) (old : Todo)
    (h : (PostgresTodoRepository.GetByID id db).1.1 = some old) :
    old ∈ db.rows ∧ old.ID = id := by
  rw [GetByID_eq] at h
  split at h
  · simp at h
  · simp only [] at h
    exact ⟨step_rows_mem db old (List.mem_of_find?_eq_some h), by simpa using List.find?_some h⟩

/-- A row after Create was there before or is the inserted record. -/
theorem Create_rows_mem (todo : Todo) (db : DB) (t : Todo)
    (h : t ∈ (PostgresTodoRepository.Create todo db).2.rows) :
    t ∈ db.rows ∨ ((PostgresTodoRepository.Create todo db).1 = (t, none) ∧
      t = { todo with ID := t.ID }) := by
  rw [Create_eq] at h ⊢
  split at h
  · exact Or.inl (step_rows_mem db t h)
  · rename_i hnone
    simp only [List.mem_append, List.mem_singleton] at h
    rcases h with h | h
    · exact Or.inl (step_rows_mem db t h)
    · right
      subst h
      exact ⟨rfl, rfl⟩

/-- A row after Update was there before or is a row with the id, with the four columns of the UPDATE overwritten. -/
theorem Update_rows_mem (todo : Todo) (db : DB) (t : Todo)
    (h : t ∈ (PostgresTodoRepository.Update todo db).2.rows) :
    t ∈ db.rows ∨ ∃ r ∈ db.rows, r.ID = todo.ID ∧
      t = { r with Title := todo.Title, Description := todo.Description,
                   Completed := todo.Completed, UpdatedAt := todo.UpdatedAt } := by
  rw [Update_eq] at h
  split at h
  · exact Or.inl (step_rows_mem db t h)
  · simp only [List.mem_map] at h
    obtain ⟨r, hr, hrt⟩ := h
    by_cases hid : r.ID = todo.ID
    · rw [if_pos hid] at hrt
      exact Or.inr ⟨r, step_rows_mem db r hr, hid, hrt.symm⟩
    · rw [if_neg hid] at hrt
      exact Or.inl (hrt ▸ step_rows_mem db r hr)

/-- A row after Delete was there before. -/
theorem Delete_rows_mem (id : Int) (db : DB) (t : Todo)
    (h : t ∈ (PostgresTodoRepository.Delete id db).2.rows) : t ∈ db.rows := by
  rw [Delete_eq] at h
  split at h
  · exact step_rows_mem db t h
  · exact step_rows_mem db t (List.mem_filter.mp h).1

/-- A row after CreateTodo was there before, or the title is non-empty and the row carries it with the two clock readings. -/
theorem CreateTodo_rows (clock : Nat → Time) (title description : String) (w : World DB)
    (t : Todo) (ht : t ∈ (todoUseCase.CreateTodo clock title description w).2.store.rows) :
    t ∈ w.store.rows ∨
      (title ≠ "" ∧ t.Title = title ∧ t.CreatedAt = clock w.ticks ∧
        t.UpdatedAt = clock (w.ticks + 1)) := by
  simp only [todoUseCase, NewTodoUseCase, NewPostgresTodoRepository,
    TodoUseCase.CreateTodo, timeNow] at ht
  by_cases htitle : title = ""
  · rw [if_pos htitle] at ht
    exact Or.inl ht
  · rw [if_neg htitle] at ht
    have hmem : t ∈ (PostgresTodoRepository.Create
        { ID := 0, Title := title, Description := description, Completed := false,
          CreatedAt := clock w.ticks, UpdatedAt := clock (w.ticks + 1) } w.store).2.rows := by
      revert ht
      split <;> exact fun h => h
    rcases Create_rows_mem _ _ _ hmem with h | ⟨_, h⟩
    · exact Or.inl h
    · right
      rw [h]
      exact ⟨htitle, rfl, rfl, rfl⟩

/-- A row after UpdateTodo was there before, or is a stored row overwritten with the supplied values, the title falling back to a stored title. -/
theorem UpdateTodo_rows (clock : Nat → Time) (id : Int) (title description : String)
    (completed : Bool) (w : World DB) (t : Todo)
    (ht : t ∈ (todoUseCase.UpdateTodo clock id title description completed w).2.store.rows) :
    t ∈ w.store.rows ∨ ∃ r ∈ w.store.rows, ∃ old ∈ w.store.rows,
      t = { r with Title := if title = "" then old.Title else title,
                   Description := description, Completed := completed,
                   UpdatedAt := clock w.ticks } := by
  have hstep : ∀ t ∈ w.store.step.2.rows, t ∈ w.store.rows := step_rows_mem _
  simp only [todoUseCase, NewTodoUseCase, NewPostgresTodoRepository,
    TodoUseCase.UpdateTodo, timeNow] at ht
  by_cases hid : id ≤ 0
  · rw [if_pos hid] at ht
    exact Or.inl ht
  · rw [if_neg hid] at ht
    have hs := GetByID_store id w.store
    have hm := GetByID_mem id w.store
    rcases hg : PostgresTodoRepository.GetByID id w.store with ⟨⟨_ | old, _ | err⟩, s1⟩ <;>
      rw [hg] at ht hs hm <;> simp only [] at ht hs hm <;> subst hs
    · exact Or.inl (hstep t ht)
    · exact Or.inl (hstep t ht)
    · have hmem : t ∈ (PostgresTodoRepository.Update
          { ID := old.ID, Title := if title = "" then old.Title else title,
            Description := description, Completed := completed,
            CreatedAt := old.CreatedAt, UpdatedAt := clock w.ticks } w.store.step.2).2.rows := by
        revert ht
        by_cases htitle : title = ""
        · simp only [htitle, ne_eq, not_true_eq_false, if_false, if_true]
          split <;> exact fun h => h
        · simp only [htitle, ne_eq, not_false_eq_true, if_false, if_true]
          split <;> exact fun h => h
      rcases Update_rows_mem _ _ _ hmem with h | ⟨r, hr, _, h⟩
      · exact Or.inl (hstep t h)
      · exact Or.inr ⟨r, hstep r hr, old, (hm old rfl).1, h⟩
    · exact Or.inl (hstep t ht)

/-- A row after ToggleTodoComplete was there before, or is a stored row overwritten with the fields of a stored record, completed negated. -/
theorem ToggleTodoComplete_rows (clock : Nat → Time) (id : Int) (w : World DB) (t : Todo)
    (ht : t ∈ (todoUseCase.ToggleTodoComplete clock id w).2.store.rows) :
    t ∈ w.store.rows ∨ ∃ r ∈ w.store.rows, ∃ old ∈ w.store.rows,
      t = { r with Title := old.Title, Description := old.Description,
                   Completed := !old.Completed, UpdatedAt := clock w.ticks } := by
  have hstep : ∀ t ∈ w.store.step.2.rows, t ∈ w.store.rows := step_rows_mem _
  simp only [todoUseCase, NewTodoUseCase, NewPostgresTodoRepository,
    TodoUseCase.ToggleTodoComplete, timeNow] at ht
  by_cases hid : id ≤ 0
  · rw [if_pos hid] at ht
    exact Or.inl ht
  · rw [if_neg hid] at ht
    have hs := GetByID_store id w.store
    have hm := GetByID_mem id w.store
    rcases hg : PostgresTodoRepository.GetByID id w.store with ⟨⟨_ | old, _ | err⟩, s1⟩ <;>
      rw [hg] at ht hs hm <;> simp only [] at ht hs hm <;> subst hs
    · exact Or.inl (hstep t ht)
    · exact Or.inl (hstep t ht)
    · have hmem : t ∈ (PostgresTodoRepository.Update
          { old with Completed := !old.Completed, UpdatedAt := clock w.ticks }
          w.store.step.2).2.rows := by
        revert ht
        split <;> exact fun h => h
      rcases Update_rows_mem _ _ _ hmem with h | ⟨r, hr, _, h⟩
      · exact Or.inl (hstep t h)
      · exact Or.inr ⟨r, hstep r hr, old, (hm old rfl).1, h⟩
    · exact Or.inl (hstep t ht)

/-- A row after DeleteTodo was there before. -/
theorem DeleteTodo_rows (id : Int) (w : World DB) (t : Todo)
    (ht : t ∈ (todoUseCase.DeleteTodo id w).2.store.rows) : t ∈ w.store.rows := by
  have hstep : ∀ t ∈ w.store.step.2.rows, t ∈ w.store.rows := step_rows_mem _
  simp only [todoUseCase, NewTodoUseCase, NewPostgresTodoRepository,
    TodoUseCase.DeleteTodo] at ht
  by_cases hid : id ≤ 0
  · rw [if_pos hid] at ht
    exact ht
  · rw [if_neg hid] at ht
    have hs := GetByID_store id w.store
    rcases hg : PostgresTodoRepository.GetByID id w.store with ⟨⟨_ | old, _ | err⟩, s1⟩ <;>
      rw [hg] at ht hs <;> simp only [] at ht hs <;> subst hs
    · exact hstep t ht
    · exact hstep t ht
    · exact hstep t (Delete_rows_mem _ _ _ ht)
    · exact hstep t ht

/-- A row after GetTodoByID was there before. -/
theorem GetTodoByID_rows (id : Int) (w : World DB) (t : Todo)
    (ht : t ∈ (todoUseCase.GetTodoByID id w).2.store.rows) : t ∈ w.store.rows := by
  have hstep : ∀ t ∈ w.store.step.2.rows, t ∈ w.store.rows := step_rows_mem _
  simp only [todoUseCase, NewTodoUseCase, NewPostgresTodoRepository,
    TodoUseCase.GetTodoByID] at ht
  by_cases hid : id ≤ 0
  · rw [if_pos hid] at ht
    exact ht
  · rw [if_neg hid] at ht
    have hs := GetByID_store id w.store
    rcases hg : PostgresTodoRepository.GetByID id w.store with ⟨⟨_ | old, _ | err⟩, s1⟩ <;>
      rw [hg] at ht hs <;> simp only [] at ht hs <;> subst hs <;> exact hstep t ht

/-- The use case CreateTodo reads the clock twice when the title is non-empty, and never turns it back. -/
theorem CreateTodo_ticks (clock : Nat → Time) (title description : String) (w : World DB) :
    w.ticks ≤ (todoUseCase.CreateTodo clock title description w).2.ticks ∧
    (title ≠ "" → (todoUseCase.CreateTodo clock title description w).2.ticks = w.ticks + 2) := by
  simp only [todoUseCase, NewTodoUseCase, NewPostgresTodoRepository,
    TodoUseCase.CreateTodo, timeNow]
  by_cases htitle : title = ""
  · simp [htitle]
  · rw [if_neg htitle]
    split <;> exact ⟨by simp only []; omega, fun _ => rfl⟩

/-- The use case UpdateTodo never turns the clock back. -/
theorem UpdateTodo_ticks (clock : Nat → Time) (id : Int) (title description : String)
    (completed : Bool) (w : World DB) :
    w.ticks ≤ (todoUseCase.UpdateTodo clock id title description completed w).2.ticks := by
  simp only [todoUseCase, NewTodoUseCase, NewPostgresTodoRepository,
    TodoUseCase.UpdateTodo, timeNow]
  repeat' split
  all_goals simp

/-- The use case ToggleTodoComplete never turns the clock back. -/
theorem ToggleTodoComplete_ticks (clock : Nat → Time) (id : Int) (w : World DB) :
    w.ticks ≤ (todoUseCase.ToggleTodoComplete clock id w).2.ticks := by
  simp only [todoUseCase, NewTodoUseCase, NewPostgresTodoRepository,
    TodoUseCase.ToggleTodoComplete, timeNow]
  repeat' split
  all_goals simp

/-- The use case DeleteTodo does not read the clock. -/
theorem DeleteTodo_ticks (id : Int) (w : World DB) :
    (todoUseCase.DeleteTodo id w).2.ticks = w.ticks := by
  simp only [todoUseCase, NewTodoUseCase, NewPostgresTodoRepository, TodoUseCase.DeleteTodo]
  repeat' split
  all_goals rfl

/-- A CreateTodo that returns no error returns a record that is now a row of the table, with the two clock readings of the call. -/
theorem CreateTodo_ok (clock : Nat → Time) (title description : String) (w : World DB)
    (hok : (todoUseCase.CreateTodo clock title description w).1.2 = none) :
    ∃ t : Todo, (todoUseCase.CreateTodo clock title description w).1 = (some t, none) ∧
      t ∈ (todoUseCase.CreateTodo clock title description w).2.store.rows ∧
      t.CreatedAt = clock w.ticks ∧ t.UpdatedAt = clock (w.ticks + 1) := by
  revert hok
  simp only [todoUseCase, NewTodoUseCase, NewPostgresTodoRepository, TodoUseCase.CreateTodo,
    timeNow, Create_eq]
  by_cases htitle : title = ""
  · simp [htitle]
  · rw [if_neg htitle]
    rcases w.store.step with ⟨_ | msg, db1⟩
    · intro _
      exact ⟨_, rfl, by simp, rfl, rfl⟩
    · intro hok
      simp at hok

/-- An UpdateTodo that returns no error returns the merged record, and a SELECT by id finds it afterwards. -/
theorem UpdateTodo_ok (clock : Nat → Time) (id : Int) (title description : String)
    (completed : Bool) (w : World DB) (old : Todo)
    (hfind : w.store.rows.find? (fun r => decide (r.ID = id)) = some old)
    (hok : (todoUseCase.UpdateTodo clock id title description completed w).1.2 = none) :
    (todoUseCase.UpdateTodo clock id title description completed w).1
      = (some { ID := old.ID, Title := if title = "" then old.Title else title,
                Description := description, Completed := completed,
                CreatedAt := old.CreatedAt, UpdatedAt := clock w.ticks }, none) ∧
    (todoUseCase.UpdateTodo clock id title description completed w).2.store.rows.find?
        (fun r => decide (r.ID = id))
      = some { ID := old.ID, Title := if title = "" then old.Title else title,
               Description := description, Completed := completed,
               CreatedAt := old.CreatedAt, UpdatedAt := clock w.ticks } := by
  have hid2 : ¬ id ≤ 0 := by
    intro hle
    revert hok
    simp [TodoUseCase.UpdateTodo, hle]
  have hid : 0 < id := not_le.mp hid2
  have hoid : old.ID = id := by simpa using List.find?_some hfind
  have hget : PostgresTodoRepository.GetByID id w.store = ((some old, none), w.store.step.2) := by
    apply GetByID_of_find id w.store old hfind
    · revert hok
      simp only [todoUseCase, NewTodoUseCase, NewPostgresTodoRepository,
        TodoUseCase.UpdateTodo, if_neg hid2]
      cases (PostgresTodoRepository.GetByID id w.store).1.2 <;> simp
    · revert hok
      simp only [todoUseCase, NewTodoUseCase, NewPostgresTodoRepository,
        TodoUseCase.UpdateTodo, if_neg hid2]
      cases (PostgresTodoRepository.GetByID id w.store).1.2 <;>
        cases (PostgresTodoRepository.GetByID id w.store).1.1 <;> simp
  obtain ⟨_, hfind1, _⟩ := GetByID_some id w.store _ old hget
  subst hoid
  rw [UpdateTodo_of_get clock old.ID title description completed w old _ hid hget] at hok ⊢
  split at hok
  · simp at hok
  · rename_i hnone
    have hk := Update_after_get
      { ID := old.ID, Title := if title = "" then old.Title else title,
        Description := description, Completed := completed, CreatedAt := old.CreatedAt,
        UpdatedAt := clock w.ticks } old _ hfind1 rfl hnone
    simp only [hk.1]
    exact ⟨trivial, hk.2⟩

/-- The readings of `exampleClock` never decrease. -/
theorem exampleClock_monotone : Monotone exampleClock := by
  intro a b hab
  have h : (a : Int) ≤ (b : Int) := Int.ofNat_le.mpr hab
  show 100 + 10 * (a : Int) ≤ 100 + 10 * (b : Int)
  omega

/-- A logged repository records the calls a use case makes: GetTodoByID with a valid id
calls GetByID once, and DeleteTodo of a stored record calls GetByID and then Delete. -/
theorem logged_records_calls :
    ((NewTodoUseCase (logged NewPostgresTodoRepository)).GetTodoByID 1
      { store := (milkWorld.store, []), ticks := 2 }).2.store.2 = [.GetByID 1] ∧
    ((NewTodoUseCase (logged NewPostgresTodoRepository)).DeleteTodo 1
      { store := (milkWorld.store, []), ticks := 2 }).2.store.2 = [.GetByID 1, .Delete 1] := by
  decide

/-! ## Validation before store access -/

/-- C1: for every id <= 0, every repository and every state, GetTodoByID, UpdateTodo,
DeleteTodo and ToggleTodoComplete return ErrInvalidTodoData and no Todo and leave the
world (store and clock) as it was; over a logged repository the log of calls is
unchanged, so no repository method is called. -/
theorem nonpositive_id_is_invalid_without_store_access {σ : Type} (uc : TodoUseCase σ)
    (repo : TodoRepository σ) (clock : Nat → Time) (id : Int) (title description : String)
    (completed : Bool) (w : World σ) (lw : World (σ × List Call)) (hid : id ≤ 0) :
    uc.GetTodoByID id w = ((none, some .ErrInvalidTodoData), w) ∧
    uc.UpdateTodo clock id title description completed w
      = ((none, some .ErrInvalidTodoData), w) ∧
    uc.DeleteTodo id w = (some .ErrInvalidTodoData, w) ∧
    uc.ToggleTodoComplete clock id w = ((none, some .ErrInvalidTodoData), w) ∧
    ((NewTodoUseCase (logged repo)).GetTodoByID id lw).2.store.2 = lw.store.2 ∧
    ((NewTodoUseCase (logged repo)).UpdateTodo clock id title description completed lw).2.store.2
      = lw.store.2 ∧
    ((NewTodoUseCase (logged repo)).DeleteTodo id lw).2.store.2 = lw.store.2 ∧
    ((NewTodoUseCase (logged repo)).ToggleTodoComplete clock id lw).2.store.2 = lw.store.2 := by
  simp [TodoUseCase.GetTodoByID, TodoUseCase.UpdateTodo, TodoUseCase.DeleteTodo,
    TodoUseCase.ToggleTodoComplete, hid]

/-- Witness of C1 at id = 0 and id = -3 over the PostgreSQL repository holding a record:
the four operations fail with ErrInvalidTodoData and the log stays empty. -/
theorem nonpositive_id_is_invalid_without_store_access_witness :
    todoUseCase.GetTodoByID 0 milkWorld = ((none, some .ErrInvalidTodoData), milkWorld) ∧
    todoUseCase.DeleteTodo (-3) milkWorld = (some .ErrInvalidTodoData, milkWorld) ∧
    ((NewTodoUseCase (logged NewPostgresTodoRepository)).ToggleTodoComplete exampleClock (-3)
      { store := (milkWorld.store, []), ticks := 2 }).2.store.2 = [] :=
  ⟨(nonpositive_id_is_invalid_without_store_access todoUseCase NewPostgresTodoRepository
      exampleClock 0 "" "" false milkWorld { store := (milkWorld.store, []), ticks := 2 }
      (by decide)).1,
   (nonpositive_id_is_invalid_without_store_access todoUseCase NewPostgresTodoRepository
      exampleClock (-3) "" "" false milkWorld { store := (milkWorld.store, []), ticks := 2 }
      (by decide)).2.2.1,
   (nonpositive_id_is_invalid_without_store_access todoUseCase NewPostgresTodoRepository
      exampleClock (-3) "" "" false milkWorld { store := (milkWorld.store, []), ticks := 2 }
      (by decide)).2.2.2.2.2.2.2⟩

/-- C2: for every description, every repository and every state, CreateTodo with the
empty title returns ErrInvalidTodoData and no Todo and leaves the world as it was; over
a logged repository the log of calls is unchanged (Create is not called), and over the
PostgreSQL repository the rows of the table are unchanged. -/
theorem create_with_empty_title_is_invalid_and_persists_nothing {σ : Type}
    (uc : TodoUseCase σ) (repo : TodoRepository σ) (clock : Nat → Time) (description : String)
    (w : World σ) (lw : World (σ × List Call)) (pw : World DB) :
    uc.CreateTodo clock "" description w = ((none, some .ErrInvalidTodoData), w) ∧
    ((NewTodoUseCase (logged repo)).CreateTodo clock "" description lw).2.store.2
      = lw.store.2 ∧
    (todoUseCase.CreateTodo clock "" description pw).2.store.rows = pw.store.rows := by
  simp [TodoUseCase.CreateTodo]

/-! ## Creation -/

/-- C4: for every id > 0 whose record `old` is found by the existence check, and for
which the repository's Update of the record built by the use case succeeds, UpdateTodo
returns without error exactly the record whose title is the supplied title if it is
non-empty and the stored title if it is empty, whose description and completed are the
supplied values (also when empty or false), whose updated_at is the current clock reading
and whose id and created_at are the stored record's; the store it leaves is the one the
repository's Update of that record produced, one clock reading was taken, and the record
is persisted: a SELECT by id on the resulting table finds it. -/
theorem update_returns_and_persists_merged_record (clock : Nat → Time) (id : Int)
    (title description : String) (completed : Bool) (w : World DB) (old : Todo) (s1 : DB)
    (hid : 0 < id)
    (hget : PostgresTodoRepository.GetByID id w.store = ((some old, none), s1))
    (hupd : (PostgresTodoRepository.Update
      { ID := old.ID, Title := if title = "" then old.Title else title,
        Description := description, Completed := completed, CreatedAt := old.CreatedAt,
        UpdatedAt := clock w.ticks } s1).1.2 = none) :
    todoUseCase.UpdateTodo clock id title description completed w
      = ((some { ID := old.ID, Title := if title = "" then old.Title else title,
                 Description := description, Completed := completed,
                 CreatedAt := old.CreatedAt, UpdatedAt := clock w.ticks }, none),
         { store := (PostgresTodoRepository.Update
             { ID := old.ID, Title := if title = "" then old.Title else title,
               Description := description, Completed := completed,
               CreatedAt := old.CreatedAt, UpdatedAt := clock w.ticks } s1).2,
           ticks := w.ticks + 1 }) ∧
    old.ID = id ∧
    (title ≠ "" →
      ((todoUseCase.UpdateTodo clock id title description completed w).1.1.map Todo.Title)
        = some title) ∧
    (title = "" →
      ((todoUseCase.UpdateTodo clock id title description completed w).1.1.map Todo.Title)
        = some old.Title) ∧
    (todoUseCase.UpdateTodo clock id title description completed w).2.store.rows.find?
        (fun r => decide (r.ID = id))
      = some { ID := old.ID, Title := if title = "" then old.Title else title,
               Description := description, Completed := completed,
               CreatedAt := old.CreatedAt, UpdatedAt := clock w.ticks } := by
  obtain ⟨_, hfind, hoid⟩ := GetByID_some id w.store s1 old hget
  subst hoid
  have hk := Update_after_get
    { ID := old.ID, Title := if title = "" then old.Title else title,
      Description := description, Completed := completed, CreatedAt := old.CreatedAt,
      UpdatedAt := clock w.ticks } old s1 hfind rfl hupd
  have heq := UpdateTodo_of_get clock old.ID title description completed w old s1 hid hget
  rw [hupd] at heq
  simp only [hk.1] at heq
  rw [heq]
  refine ⟨rfl, rfl, ?_, ?_, hk.2⟩
  · intro ht
    simp [ht]
  · intro ht
    simp [ht]

/-- Witness of C4 on the table holding `milk`: Update(1, "Buy bread", "white", false)
replaces the title, and Update(1, "", "", true) keeps the title and sets completed. -/
theorem update_returns_and_persists_merged_record_witness :
    (todoUseCase.UpdateTodo exampleClock 1 "Buy bread" "white" false milkWorld).1
      = (some { ID := 1, Title := "Buy bread", Description := "white", Completed := false,
                CreatedAt := 100, UpdatedAt := 120 }, none) ∧
    (todoUseCase.UpdateTodo exampleClock 1 "Buy bread" "white" false milkWorld).2.store.rows
      = [{ ID := 1, Title := "Buy bread", Description := "white", Completed := false,
           CreatedAt := 100, UpdatedAt := 120 }] ∧
    (todoUseCase.UpdateTodo exampleClock 1 "" "" true milkWorld).1
      = (some { ID := 1, Title := "Buy milk", Description := "", Completed := true,
                CreatedAt := 100, UpdatedAt := 120 }, none) ∧
    (todoUseCase.UpdateTodo exampleClock 1 "" "" true milkWorld).2.store.rows.find?
        (fun r => decide (r.ID = 1))
      = some { ID := 1, Title := "Buy milk", Description := "", Completed := true,
               CreatedAt := 100, UpdatedAt := 120 } :=
  ⟨congrArg Prod.fst
      (update_returns_and_persists_merged_record exampleClock 1 "Buy bread" "white" false
        milkWorld milk milkWorld.store (by decide) (by decide) (by decide)).1,
   congrArg (fun r => r.2.store.rows)
      (update_returns_and_persists_merged_record exampleClock 1 "Buy bread" "white" false
        milkWorld milk milkWorld.store (by decide) (by decide) (by decide)).1,
   congrArg Prod.fst
      (update_returns_and_persists_merged_record exampleClock 1 "" "" true
        milkWorld milk milkWorld.store (by decide) (by decide) (by decide)).1,
   (update_returns_and_persists_merged_record exampleClock 1 "" "" true
        milkWorld milk milkWorld.store (by decide) (by decide) (by decide)).2.2.2.2⟩

/-! ## Zero affected rows -/

/-- C5, the code at the failing input: the repository's Update and Delete never return
ErrTodoNotFound; when another session deletes row 1 after the existence check, UpdateTodo,
ToggleTodoComplete and DeleteTodo return the error "no todo found with id 1", which is
not ErrTodoNotFound, and the handlers answer 500. -/
theorem zero_affected_rows_is_not_ErrTodoNotFound :
    (∀ (todo : Todo) (db : DB),
      (PostgresTodoRepository.Update todo db).1.2 ≠ some .ErrTodoNotFound) ∧
    (∀ (id : Int) (db : DB), (PostgresTodoRepository.Delete id db).1 ≠ some .ErrTodoNotFound) ∧
    (todoUseCase.GetTodoByID 1 racedWorld).1 = (some milk, none) ∧
    (todoUseCase.UpdateTodo exampleClock 1 "Buy bread" "" false racedWorld).1
      = (none, some (.other "no todo found with id 1")) ∧
    (todoUseCase.ToggleTodoComplete exampleClock 1 racedWorld).1
      = (none, some (.other "no todo found with id 1")) ∧
    (todoUseCase.DeleteTodo 1 racedWorld).1 = some (.other "no todo found with id 1") ∧
    (todoHandler.UpdateTodo exampleClock
      { paramID := "1", body := some { Title := "Buy bread", Description := "", Completed := false } }
      racedWorld).1.status = 500 ∧
    (todoHandler.ToggleTodoComplete exampleClock { paramID := "1", body := none }
      racedWorld).1.status = 500 ∧
    (todoHandler.DeleteTodo { paramID := "1", body := none } racedWorld).1.status = 500 := by
  refine ⟨?_, ?_, by decide, by decide, by decide, by decide, by decide, by decide, by decide⟩
  · intro todo db
    simp only [PostgresTodoRepository.Update, DB.execUpdate, Result.RowsAffected]
    rcases db.step with ⟨_ | msg, db1⟩
    · dsimp only
      split <;> simp
    · simp
  · intro id db
    simp only [PostgresTodoRepository.Delete, DB.execDelete, Result.RowsAffected]
    rcases db.step with ⟨_ | msg, db1⟩
    · dsimp only
      split <;> simp
    · simp

/-! ## Status codes -/

/-- C6, the code at the failing inputs: when the path parameter is a number id <= 0, the
use case returns ErrInvalidTodoData and the handlers GetTodoByID, DeleteTodo and
ToggleTodoComplete answer 500 (not 400), for every repository and state. -/
theorem get_delete_toggle_answer_500_for_nonpositive_id {σ : Type} (h : TodoHandler σ)
    (clock : Nat → Time) (c : Context) (w : World σ) (id : Int)
    (hparam : Atoi c.paramID = some id) (hid : id ≤ 0) :
    (h.todoUseCase.GetTodoByID id w).1.2 = some .ErrInvalidTodoData ∧
    (h.GetTodoByID c w).1 = { status := 500, body := .H "Failed to get todo" } ∧
    (h.DeleteTodo c w).1 = { status := 500, body := .H "Failed to delete todo" } ∧
    (h.ToggleTodoComplete clock c w).1 = { status := 500, body := .H "Failed to toggle todo" } := by
  simp [TodoHandler.GetTodoByID, TodoHandler.DeleteTodo, TodoHandler.ToggleTodoComplete,
    TodoUseCase.GetTodoByID, TodoUseCase.DeleteTodo, TodoUseCase.ToggleTodoComplete, hparam,
    hid, StatusInternalServerError]

/-- Witness of the C6 evaluation: GET, DELETE and PATCH-toggle with the path parameter
"0" over the PostgreSQL repository are answered with 500. -/
theorem get_delete_toggle_answer_500_for_nonpositive_id_witness :
    (todoHandler.todoUseCase.GetTodoByID 0 milkWorld).1.2 = some .ErrInvalidTodoData ∧
    (todoHandler.GetTodoByID { paramID := "0", body := none } milkWorld).1
      = { status := 500, body := .H "Failed to get todo" } ∧
    (todoHandler.DeleteTodo { paramID := "0", body := none } milkWorld).1
      = { status := 500, body := .H "Failed to delete todo" } ∧
    (todoHandler.ToggleTodoComplete exampleClock { paramID := "0", body := none } milkWorld).1
      = { status := 500, body := .H "Failed to toggle todo" } :=
  get_delete_toggle_answer_500_for_nonpositive_id todoHandler exampleClock
    { paramID := "0", body := none } milkWorld 0 (by decide) (by decide)

/-! ## Toggle and delete on a running store -/

/-- C8: for every id > 0, on a store where every statement runs: if no record has the id,
DeleteTodo fails with ErrTodoNotFound and leaves the world unchanged; if a record `old` has
the id, DeleteTodo succeeds, the rows left are exactly the rows with another id (with unique
ids: the table with `old` erased), and a second DeleteTodo fails with ErrTodoNotFound. -/
theorem delete_removes_record_then_not_found (id : Int) (w : World DB) (hid : 0 < id)
    (hquiet : w.store.script = []) :
    ((∀ r ∈ w.store.rows, r.ID ≠ id) →
      todoUseCase.DeleteTodo id w = (some .ErrTodoNotFound, w)) ∧
    (∀ old : Todo, old ∈ w.store.rows → old.ID = id →
      (todoUseCase.DeleteTodo id w).1 = none ∧
      (∀ t : Todo, t ∈ (todoUseCase.DeleteTodo id w).2.store.rows ↔
        t ∈ w.store.rows ∧ t.ID ≠ id) ∧
      ((w.store.rows.map Todo.ID).Nodup →
        (todoUseCase.DeleteTodo id w).2.store.rows = w.store.rows.erase old) ∧
      todoUseCase.DeleteTodo id (todoUseCase.DeleteTodo id w).2
        = (some .ErrTodoNotFound, (todoUseCase.DeleteTodo id w).2)) := by
  constructor
  · intro hnone
    rw [DeleteTodo_quiet id w hid hquiet, if_pos]
    rw [List.find?_eq_none]
    intro r hr
    simpa using hnone r hr
  · intro old hmem hoid
    have hsome : ¬ w.store.rows.find? (fun r => decide (r.ID = id)) = none := by
      rw [List.find?_eq_none]
      intro h
      exact absurd (by simpa using hoid) (h old hmem)
    rw [DeleteTodo_quiet id w hid hquiet, if_neg hsome]
    refine ⟨rfl, ?_, ?_, ?_⟩
    · intro t
      simp [List.mem_filter]
    · intro hnd
      subst hoid
      exact filter_eq_erase _ old hnd hmem
    · simp only []
      refine (DeleteTodo_quiet id _ hid ?_).trans ?_
      · exact hquiet
      · rw [if_pos]
        exact find_filter_ne _ _

/-- Witness of C8: deleting the absent id 2, then the stored id 1 twice. -/
theorem delete_removes_record_then_not_found_witness :
    todoUseCase.DeleteTodo 2 milkWorld = (some .ErrTodoNotFound, milkWorld) ∧
    (todoUseCase.DeleteTodo 1 milkWorld).1 = none ∧
    (todoUseCase.DeleteTodo 1 milkWorld).2.store.rows = milkWorld.store.rows.erase milk ∧
    todoUseCase.DeleteTodo 1 (todoUseCase.DeleteTodo 1 milkWorld).2
      = (some .ErrTodoNotFound, (todoUseCase.DeleteTodo 1 milkWorld).2) :=
  ⟨(delete_removes_record_then_not_found 2 milkWorld (by decide) rfl).1 (by decide),
   ((delete_removes_record_then_not_found 1 milkWorld (by decide) rfl).2 milk
      (by decide) rfl).1,
   ((delete_removes_record_then_not_found 1 milkWorld (by decide) rfl).2 milk
      (by decide) rfl).2.2.1 (by decide),
   ((delete_removes_record_then_not_found 1 milkWorld (by decide) rfl).2 milk
      (by decide) rfl).2.2.2⟩

/-! ## Invariants of the table -/

/-- C9: if every row has a non-empty title, then after CreateTodo, UpdateTodo, DeleteTodo,
ToggleTodoComplete (and GetTodoByID) with any arguments, under any driver failures and
concurrent deletes, successful or failing, every row still has a non-empty title. -/
theorem titles_stay_nonempty (clock : Nat → Time) (w : World DB) (id : Int)
    (title description : String) (completed : Bool)
    (hinv : ∀ t ∈ w.store.rows, t.Title ≠ "") :
    (∀ t ∈ (todoUseCase.CreateTodo clock title description w).2.store.rows, t.Title ≠ "") ∧
    (∀ t ∈ (todoUseCase.UpdateTodo clock id title description completed w).2.store.rows,
      t.Title ≠ "") ∧
    (∀ t ∈ (todoUseCase.DeleteTodo id w).2.store.rows, t.Title ≠ "") ∧
    (∀ t ∈ (todoUseCase.ToggleTodoComplete clock id w).2.store.rows, t.Title ≠ "") ∧
    (∀ t ∈ (todoUseCase.GetTodoByID id w).2.store.rows, t.Title ≠ "") := by
  refine ⟨?_, ?_, ?_, ?_, ?_⟩
  · intro t ht
    rcases CreateTodo_rows _ _ _ _ _ ht with h | ⟨h1, h2, _⟩
    · exact hinv t h
    · rw [h2]
      exact h1
  · intro t ht
    rcases UpdateTodo_rows _ _ _ _ _ _ _ ht with h | ⟨r, _, old, hold, h⟩
    · exact hinv t h
    · rw [h]
      simp only []
      split
      · exact hinv old hold
      · assumption
  · intro t ht
    exact hinv t (DeleteTodo_rows _ _ _ ht)
  · intro t ht
    rcases ToggleTodoComplete_rows _ _ _ _ ht with h | ⟨r, _, old, hold, h⟩
    · exact hinv t h
    · rw [h]
      exact hinv old hold
  · intro t ht
    exact hinv t (GetTodoByID_rows _ _ _ ht)

/-- Witness of C9 on the table holding `milk` with a concurrent delete scheduled. -/
theorem titles_stay_nonempty_witness :
    (∀ t ∈ (todoUseCase.CreateTodo exampleClock "Buy bread" "" racedWorld).2.store.rows,
      t.Title ≠ "") ∧
    (∀ t ∈ (todoUseCase.UpdateTodo exampleClock 1 "" "" true racedWorld).2.store.rows,
      t.Title ≠ "") ∧
    (∀ t ∈ (todoUseCase.DeleteTodo 1 racedWorld).2.store.rows, t.Title ≠ "") ∧
    (∀ t ∈ (todoUseCase.ToggleTodoComplete exampleClock 1 racedWorld).2.store.rows,
      t.Title ≠ "") ∧
    (∀ t ∈ (todoUseCase.GetTodoByID 1 racedWorld).2.store.rows, t.Title ≠ "") :=
  titles_stay_nonempty exampleClock racedWorld 1 "Buy bread" "" true (by decide)

/-- C10: with clock readings that never decrease, a record produced by CreateTodo is
persisted with created_at <= updated_at; if the stored record of an id has created_at not
later than the current clock reading, the record returned and persisted by a successful
UpdateTodo or ToggleTodoComplete has the same created_at and created_at <= updated_at; and
if every row has created_at <= updated_at and created_at <= the current reading, so it is
after CreateTodo, UpdateTodo, DeleteTodo and ToggleTodoComplete. -/
theorem created_at_le_updated_at_is_kept (clock : Nat → Time) (w : World DB)
    (hmono : Monotone clock) :
    (∀ title description : String,
      (todoUseCase.CreateTodo clock title description w).1.2 = none →
      ∃ t : Todo, (todoUseCase.CreateTodo clock title description w).1.1 = some t ∧
        t ∈ (todoUseCase.CreateTodo clock title description w).2.store.rows ∧
        t.CreatedAt ≤ t.UpdatedAt) ∧
    (∀ (id : Int) (title description : String) (completed : Bool) (old : Todo),
      w.store.rows.find? (fun r => decide (r.ID = id)) = some old →
      old.CreatedAt ≤ old.UpdatedAt → old.CreatedAt ≤ clock w.ticks →
      (todoUseCase.UpdateTodo clock id title description completed w).1.2 = none →
      ∃ t : Todo,
        (todoUseCase.UpdateTodo clock id title description completed w).1.1 = some t ∧
        (todoUseCase.UpdateTodo clock id title description completed w).2.store.rows.find?
          (fun r => decide (r.ID = id)) = some t ∧
        t.CreatedAt = old.CreatedAt ∧ t.CreatedAt ≤ t.UpdatedAt) ∧
    (∀ (id : Int) (old : Todo),
      w.store.rows.find? (fun r => decide (r.ID = id)) = some old →
      old.CreatedAt ≤ old.UpdatedAt → old.CreatedAt ≤ clock w.ticks →
      (todoUseCase.ToggleTodoComplete clock id w).1.2 = none →
      ∃ t : Todo,
        (todoUseCase.ToggleTodoComplete clock id w).1.1 = some t ∧
        (todoUseCase.ToggleTodoComplete clock id w).2.store.rows.find?
          (fun r => decide (r.ID = id)) = some t ∧
        t.CreatedAt = old.CreatedAt ∧ t.CreatedAt ≤ t.UpdatedAt) ∧
    ((∀ t ∈ w.store.rows, t.CreatedAt ≤ t.UpdatedAt ∧ t.CreatedAt ≤ clock w.ticks) →
      ∀ (id : Int) (title description : String) (completed : Bool),
        (∀ t ∈ (todoUseCase.CreateTodo clock title description w).2.store.rows,
          t.CreatedAt ≤ t.UpdatedAt ∧
          t.CreatedAt ≤ clock (todoUseCase.CreateTodo clock title description w).2.ticks) ∧
        (∀ t ∈ (todoUseCase.UpdateTodo clock id title description completed w).2.store.rows,
          t.CreatedAt ≤ t.UpdatedAt ∧
          t.CreatedAt ≤
            clock (todoUseCase.UpdateTodo clock id title description completed w).2.ticks) ∧
        (∀ t ∈ (todoUseCase.DeleteTodo id w).2.store.rows,
          t.CreatedAt ≤ t.UpdatedAt ∧
          t.CreatedAt ≤ clock (todoUseCase.DeleteTodo id w).2.ticks) ∧
        (∀ t ∈ (todoUseCase.ToggleTodoComplete clock id w).2.store.rows,
          t.CreatedAt ≤ t.UpdatedAt ∧
          t.CreatedAt ≤ clock (todoUseCase.ToggleTodoComplete clock id w).2.ticks)) := by
  refine ⟨?_, ?_, ?_, ?_⟩
  · intro title description hok
    obtain ⟨t, h1, h2, h3, h4⟩ := CreateTodo_ok clock title description w hok
    refine ⟨t, by rw [h1], h2, ?_⟩
    rw [h3, h4]
    exact hmono (Nat.le_succ _)
  · intro id title description completed old hfind _ hnow hok
    obtain ⟨h1, h2⟩ := UpdateTodo_ok clock id title description completed w old hfind hok
    exact ⟨_, by rw [h1], h2, rfl, hnow⟩
  · intro id old hfind _ hnow hok
    have hid : 0 < id := by
      by_contra hle
      revert hok
      simp [TodoUseCase.ToggleTodoComplete, not_lt.mp hle]
    obtain ⟨h1, h2, _⟩ := ToggleTodoComplete_ok clock id w old hid hfind hok
    exact ⟨_, by rw [h1], h2, rfl, hnow⟩
  · intro hinv id title description completed
    refine ⟨?_, ?_, ?_, ?_⟩
    · intro t ht
      rcases CreateTodo_rows _ _ _ _ _ ht with h | ⟨h1, _, h3, h4⟩
      · exact ⟨(hinv t h).1, le_trans (hinv t h).2 (hmono (CreateTodo_ticks _ _ _ _).1)⟩
      · rw [h3, h4, (CreateTodo_ticks clock title description w).2 h1]
        exact ⟨hmono (Nat.le_succ _), hmono (by omega)⟩
    · intro t ht
      have hticks := hmono (UpdateTodo_ticks clock id title description completed w)
      rcases UpdateTodo_rows _ _ _ _ _ _ _ ht with h | ⟨r, hr, _, _, h⟩
      · exact ⟨(hinv t h).1, le_trans (hinv t h).2 hticks⟩
      · rw [h]
        exact ⟨(hinv r hr).2, le_trans (hinv r hr).2 hticks⟩
    · intro t ht
      rw [DeleteTodo_ticks]
      exact hinv t (DeleteTodo_rows _ _ _ ht)
    · intro t ht
      have hticks := hmono (ToggleTodoComplete_ticks clock id w)
      rcases ToggleTodoComplete_rows _ _ _ _ ht with h | ⟨r, hr, _, _, h⟩
      · exact ⟨(hinv t h).1, le_trans (hinv t h).2 hticks⟩
      · rw [h]
        exact ⟨(hinv r hr).2, le_trans (hinv r hr).2 hticks⟩

/-- Witness of C10 on the table holding `milk` with the clock 100, 110, ... -/
theorem created_at_le_updated_at_is_kept_witness :
    (∃ t : Todo, (todoUseCase.CreateTodo exampleClock "Buy bread" "" milkWorld).1.1 = some t ∧
        t ∈ (todoUseCase.CreateTodo exampleClock "Buy bread" "" milkWorld).2.store.rows ∧
        t.CreatedAt ≤ t.UpdatedAt) ∧
    (∃ t : Todo,
        (todoUseCase.UpdateTodo exampleClock 1 "" "" true milkWorld).1.1 = some t ∧
        (todoUseCase.UpdateTodo exampleClock 1 "" "" true milkWorld).2.store.rows.find?
          (fun r => decide (r.ID = 1)) = some t ∧
        t.CreatedAt = milk.CreatedAt ∧ t.CreatedAt ≤ t.UpdatedAt) ∧
    (∃ t : Todo,
        (todoUseCase.ToggleTodoComplete exampleClock 1 milkWorld).1.1 = some t ∧
        (todoUseCase.ToggleTodoComplete exampleClock 1 milkWorld).2.store.rows.find?
          (fun r => decide (r.ID = 1)) = some t ∧
        t.CreatedAt = milk.CreatedAt ∧ t.CreatedAt ≤ t.UpdatedAt) ∧
    (∀ t ∈ (todoUseCase.ToggleTodoComplete exampleClock 1 milkWorld).2.store.rows,
      t.CreatedAt ≤ t.UpdatedAt ∧
      t.CreatedAt ≤ exampleClock (todoUseCase.ToggleTodoComplete exampleClock 1 milkWorld).2.ticks) :=
  ⟨(created_at_le_updated_at_is_kept exampleClock milkWorld exampleClock_monotone).1
      "Buy bread" "" (by decide),
   (created_at_le_updated_at_is_kept exampleClock milkWorld exampleClock_monotone).2.1
      1 "" "" true milk (by decide) (by decide) (by decide) (by decide),
   (created_at_le_updated_at_is_kept exampleClock milkWorld exampleClock_monotone).2.2.1
      1 milk (by decide) (by decide) (by decide) (by decide),
   ((created_at_le_updated_at_is_kept exampleClock milkWorld exampleClock_monotone).2.2.2
      (by decide) 1 "" "" true).2.2.2⟩

end TodoApi
